import Mathlib

/-!
Verification development for the email-validation feature pipeline
(`EmailValidator` in `src/backend/server.js` together with the Express
routes in the same file).

JavaScript strings are embedded as `List Char`; JavaScript numbers that
carry feature values are embedded as `ℚ` (every value produced by the
pipeline is a small exact rational).  The network boundary
(`dns/promises`, the SMTP helper, the external `validator.isEmail`
predicate and the `disposable-email-domains` list) is embedded as an
explicit environment record `Env`; each probe of the source catches its
own resolver errors, which the environment models with `Except` results.
-/

/-- JavaScript strings are modelled as lists of characters. -/
abbrev Str := List Char

/-- A JavaScript value that may fail the `typeof email !== 'string'` test:
`none` stands for `null`/`undefined`/any non-string value. -/
abbrev JsVal := Option Str

/-- Whitespace class used by JavaScript `String.prototype.trim` and the
regular expression `\s` (restricted to the ASCII whitespace characters). -/
def isWsChar (c : Char) : Bool :=
  c == ' ' || c == '\t' || c == '\n' || c == '\r' || c == '\x0b' || c == '\x0c'

/-- JavaScript `String.prototype.trim`. -/
def trimStr (s : Str) : Str :=
  ((s.dropWhile isWsChar).reverse.dropWhile isWsChar).reverse

/-- JavaScript `String.prototype.toLowerCase` (ASCII). -/
def toLowerStr (s : Str) : Str :=
  s.map Char.toLower

mutual

/-- Helper for `splitWs`: currently accumulating a (reversed) token. -/
def splitWsGo : Str → Str → List Str
  | [], cur => [cur.reverse]
  | c :: cs, cur =>
    if isWsChar c then cur.reverse :: splitWsRest cs
    else splitWsGo cs (c :: cur)

/-- Helper for `splitWs`: just saw a whitespace run, skipping the rest of it. -/
def splitWsRest : Str → List Str
  | [] => [[]]
  | c :: cs => if isWsChar c then splitWsRest cs else splitWsGo cs [c]

end

/-- JavaScript `str.split(/\s+/)`: splits at maximal whitespace runs,
with an empty leading (resp. trailing) token when the string starts
(resp. ends) with whitespace. -/
def splitWs (s : Str) : List Str :=
  splitWsGo s []

/-- JavaScript `str.split(sep)` for a one-character separator: keeps empty
segments, always returns at least one segment. -/
def splitOnChar (sep : Char) : Str → List Str
  | [] => [[]]
  | c :: cs =>
    let r := splitOnChar sep cs
    if c = sep then [] :: r
    else
      match r with
      | [] => [[c]]
      | t :: ts => (c :: t) :: ts

/-- `sanitizeEmail` (server.js lines 91-99): rejects (returns `none`, the
embedding of the JavaScript `false`) a non-string, an empty/blank string,
a string containing `,` or `;`, and a string splitting into more than one
whitespace-separated token; otherwise trims and lower-cases. -/
def sanitizeEmail (email : JsVal) : Option Str :=
  match email with
  | none => none
  | some e =>
    if trimStr e = [] then none
    else if e.contains ',' || e.contains ';' || decide (1 < (splitWs (trimStr e)).length)
    then none
    else some (toLowerStr (trimStr e))

deriving instance DecidableEq for Except

/-- An MX record as returned by `dns.resolveMx` (only the `exchange` host
matters to the pipeline; priority is never read). -/
structure MxRecord where
  exchange : Str
deriving DecidableEq

/-- A DNS resolution error; the pipeline only ever distinguishes
`ENOTFOUND` from every other error code (in `validateDnsblRecords`). -/
inductive DnsErr where
  | enotfound
  | other
deriving DecidableEq

/-- The network/reference boundary of the pipeline: the `dns/promises`
resolver capabilities, the SMTP handshake helper, the external
`validator.isEmail` predicate and the `disposable-email-domains` list.
An `Except.error` value models the corresponding promise rejecting. -/
structure Env where
  resolveA : Str → Except DnsErr (List Str)
  resolveMx : Str → Except DnsErr (List MxRecord)
  resolve4 : Str → Except DnsErr (List Str)
  resolveTxt : Str → Except DnsErr (List (List Str))
  smtp : Str → Except DnsErr Bool
  isEmail : Str → Bool
  disposableDomains : List Str

/-- `commonDomains` (server.js lines 59-62). -/
def commonDomains : List Str :=
  ["gmail.com".data, "yahoo.com".data, "hotmail.com".data, "outlook.com".data,
   "aol.com".data, "icloud.com".data, "protonmail.com".data, "mail.com".data,
   "zoho.com".data, "yandex.com".data]

/-- `topLevelDomains` (server.js lines 63-66). -/
def topLevelDomains : List Str :=
  ["com".data, "org".data, "net".data, "edu".data, "gov".data, "mil".data,
   "io".data, "co".data, "us".data, "uk".data, "ca".data, "au".data,
   "de".data, "fr".data, "jp".data, "cn".data, "ru".data, "in".data,
   "br".data, "it".data]

/-- `featureLabels` (server.js lines 67-88): the canonical ordered slot
catalog of the feature vector. -/
def featureLabels : List String :=
  ["inputValidation", "syntaxValidation", "emailLength", "localPartLength",
   "domainLength", "disposableDomain", "commonDomain", "domainTypoScore",
   "tldPopularity", "dnsValidation", "mxValidation", "mxRecordCount",
   "dnsblValidation", "spfValidation", "dmarcValidation", "dkimValidation",
   "smtpValidation", "hasNumbers", "specialCharCount", "consecutiveSpecialChars"]

/-- `validateEmailFormat` (server.js lines 101-103): defers to the external
`validator.isEmail` predicate, supplied by the environment. -/
def validateEmailFormat (env : Env) (email : Str) : Bool :=
  env.isEmail email

/-- `checkDisposableDomain` (server.js lines 105-107): set lookup against
the injected `disposable-email-domains` list, negated (true = clean). -/
def checkDisposableDomain (env : Env) (domain : Str) : Bool :=
  !(env.disposableDomains.contains (toLowerStr domain))

/-- `isCommonDomain` (server.js lines 109-111). -/
def isCommonDomain (domain : Str) : Bool :=
  commonDomains.contains (toLowerStr domain)

/-- Levenshtein edit distance with an explicit fuel argument making the
recursion structural (hence kernel-computable); the fuel only gates the
step on two non-empty strings, where every recursive call shrinks the
total length by at least one. -/
def levFuel : Nat → Str → Str → Nat
  | fuel, xs, ys =>
    match xs, ys with
    | [], ys => ys.length
    | x :: xs', [] => (x :: xs').length
    | x :: xs', y :: ys' =>
      match fuel with
      | 0 => 0
      | f + 1 =>
        if x = y then levFuel f xs' ys'
        else 1 + min (levFuel f xs' (y :: ys'))
                      (min (levFuel f (x :: xs') ys') (levFuel f xs' ys'))

/-- Levenshtein edit distance; embeds the `fast-levenshtein` dependency
(`levenshtein.get`) used by `calculateDomainTypoScore`.  The fuel
`|xs| + |ys|` is always sufficient: `lev_cons_cons` below recovers the
standard defining recurrence. -/
def lev (xs ys : Str) : Nat :=
  levFuel (xs.length + ys.length) xs ys

/-- `Math.min(...this.commonDomains.map(cd => levenshtein.get(domain.toLowerCase(), cd)))`
(server.js lines 116-120). -/
def minDistance (domain : Str) : Nat :=
  match commonDomains.map (fun cd => lev (toLowerStr domain) cd) with
  | [] => 0
  | d :: ds => ds.foldl min d

/-- `calculateDomainTypoScore` (server.js lines 113-124). -/
def calculateDomainTypoScore (domain : Str) : ℚ :=
  if isCommonDomain domain then 0
  else min ((minDistance domain : ℚ) / 3) 1

/-- `tldPopularityScore` (server.js lines 126-129): last dot-separated
label (`split('.').pop()`), lower-cased, looked up in `topLevelDomains`. -/
def tldPopularityScore (domain : Str) : ℚ :=
  let tld := toLowerStr ((splitOnChar '.' domain).getLastD [])
  if topLevelDomains.contains tld then 1 else 1 / 2

/-- `validateDnsRecords` (server.js lines 131-138): true iff A-record
resolution succeeds with at least one address; any error maps to false. -/
def validateDnsRecords (env : Env) (domain : Str) : Bool :=
  match env.resolveA domain with
  | .ok addresses => decide (0 < addresses.length)
  | .error _ => false

/-- `validateMxRecords` (server.js lines 140-147): true iff MX resolution
succeeds and some record has a non-blank exchange host. -/
def validateMxRecords (env : Env) (domain : Str) : Bool :=
  match env.resolveMx domain with
  | .ok mxRecords => mxRecords.any (fun record => !(trimStr record.exchange).isEmpty)
  | .error _ => false

/-- `getMxRecordCount` (server.js lines 149-156): `min(count/5, 1)` on
success, 0 on any resolution error. -/
def getMxRecordCount (env : Env) (domain : Str) : ℚ :=
  match env.resolveMx domain with
  | .ok mxRecords => min ((mxRecords.length : ℚ) / 5) 1
  | .error _ => 0

/-- The DNSBL zone list (server.js lines 160-167). -/
def dnsblZones : List Str :=
  ["zen.spamhaus.org".data, "b.barracudacentral.org".data, "bl.spamcop.net".data,
   "dnsbl.sorbs.net".data, "spam.dnsbl.sorbs.net".data, "cbl.abuseat.org".data]

/-- `ip.split('.').reverse().join('.')` (server.js line 182). -/
def reverseIp (ip : Str) : Str :=
  List.intercalate ".".data ((splitOnChar '.' ip).reverse)

/-- The DNSBL query string `` `${reversedIP}.${zone}` `` (server.js line 184). -/
def dnsblQuery (ip zone : Str) : Str :=
  reverseIp ip ++ ".".data ++ zone

/-- One zone check of `validateDnsblRecords` (server.js lines 185-194): a
successful resolution with at least one address is a blacklist hit; an
`ENOTFOUND` error is a clean result and any other error is inconclusive —
both continue the iteration without marking a hit. -/
def dnsblHit (env : Env) (ip zone : Str) : Bool :=
  match env.resolve4 (dnsblQuery ip zone) with
  | .ok result => !result.isEmpty
  | .error DnsErr.enotfound => false
  | .error DnsErr.other => false

/-- The zone loop of `validateDnsblRecords` (server.js lines 183-195),
returning true iff a hit is found (which makes the probe return false). -/
def dnsblScanZones (env : Env) (ip : Str) : List Str → Bool
  | [] => false
  | zone :: zones =>
    if dnsblHit env ip zone then true else dnsblScanZones env ip zones

/-- The IP loop of `validateDnsblRecords` (server.js lines 181-196). -/
def dnsblScanIps (env : Env) : List Str → Bool
  | [] => false
  | ip :: ips =>
    if dnsblScanZones env ip dnsblZones then true else dnsblScanIps env ips

/-- The MX loop of `validateDnsblRecords` (server.js lines 173-197): an
MX host whose address resolution fails is skipped (`continue`). -/
def dnsblScanMx (env : Env) : List MxRecord → Bool
  | [] => false
  | mx :: rest =>
    match env.resolve4 mx.exchange with
    | .error _ => dnsblScanMx env rest
    | .ok ipAddresses =>
      if dnsblScanIps env ipAddresses then true else dnsblScanMx env rest

/-- `validateDnsblRecords` (server.js lines 158-202): true = not listed.
A domain with no MX records returns true; a found hit returns false; a
failing MX resolution hits the outer catch and returns false. -/
def validateDnsblRecords (env : Env) (domain : Str) : Bool :=
  match env.resolveMx domain with
  | .error _ => false
  | .ok mxRecords =>
    if mxRecords.isEmpty then true
    else !(dnsblScanMx env mxRecords)

/-- `validateSpfRecord` (server.js lines 204-212). -/
def validateSpfRecord (env : Env) (domain : Str) : Bool :=
  match env.resolveTxt domain with
  | .ok txtRecords => txtRecords.flatten.any (fun record => "v=spf1".data.isPrefixOf record)
  | .error _ => false

/-- `validateDmarcRecord` (server.js lines 214-223). -/
def validateDmarcRecord (env : Env) (domain : Str) : Bool :=
  match env.resolveTxt ("_dmarc.".data ++ domain) with
  | .ok txtRecords => txtRecords.flatten.any (fun record => "v=DMARC1".data.isPrefixOf record)
  | .error _ => false

/-- The fixed DKIM selector list (server.js line 226). -/
def dkimSelectors : List Str :=
  ["default".data, "google".data, "k1".data, "selector1".data, "selector2".data, "dkim".data]

/-- The DKIM query string `` `${selector}._domainkey.${domain}` `` (server.js line 230). -/
def dkimQuery (sel domain : Str) : Str :=
  sel ++ "._domainkey.".data ++ domain

/-- One selector check of `validateDkimRecord` (server.js lines 229-238):
true iff TXT resolution for the selector succeeds and some flattened
record starts with `v=DKIM1`; a resolution error continues the loop. -/
def dkimSelMatch (env : Env) (domain sel : Str) : Bool :=
  match env.resolveTxt (dkimQuery sel domain) with
  | .ok txtRecords => txtRecords.flatten.any (fun record => "v=DKIM1".data.isPrefixOf record)
  | .error _ => false

/-- The selector loop of `validateDkimRecord` (server.js lines 228-239). -/
def dkimGo (env : Env) (domain : Str) : List Str → Bool
  | [] => false
  | sel :: rest =>
    if dkimSelMatch env domain sel then true else dkimGo env domain rest

/-- `validateDkimRecord` (server.js lines 225-242): tries the fixed
selector list in order; exhausting the list returns false. -/
def validateDkimRecord (env : Env) (domain : Str) : Bool :=
  dkimGo env domain dkimSelectors

/-- `validateSMTPConnection` (server.js lines 244-255): the
`verifyEmail` handshake, any error collapsing to false. -/
def validateSMTPConnection (env : Env) (email : Str) : Bool :=
  match env.smtp email with
  | .ok result => result
  | .error _ => false

/-- JavaScript `\w` word class `[A-Za-z0-9_]`. -/
def isWordChar (c : Char) : Bool :=
  c.isAlphanum || c == '_'

/-- The special-character class `[^\w\s@]` of `countSpecialChars` and
`hasConsecutiveSpecialChars`. -/
def isSpecialChar (c : Char) : Bool :=
  !(isWordChar c || isWsChar c || c == '@')

/-- `hasNumbers` (server.js lines 257-259): `/\d/.test(str)`. -/
def hasNumbers (str : Str) : Bool :=
  str.any Char.isDigit

/-- `countSpecialChars` (server.js lines 261-263):
`(str.match(/[^\w\s@]/g) || []).length`. -/
def countSpecialChars (str : Str) : Nat :=
  (str.filter isSpecialChar).length

/-- `hasConsecutiveSpecialChars` (server.js lines 265-267):
`/[^\w\s@]{2,}/.test(str)`. -/
def hasConsecutiveSpecialChars : Str → Bool
  | a :: b :: rest =>
    (isSpecialChar a && isSpecialChar b) || hasConsecutiveSpecialChars (b :: rest)
  | _ => false

/-- Embedding of a JavaScript boolean coerced by `b ? 1 : 0`. -/
def b2q (b : Bool) : ℚ :=
  if b then 1 else 0

/-- String length as a rational, for the normalized length features. -/
def qlen (s : Str) : ℚ :=
  (s.length : ℚ)

/-- The method table seen by `extractFeatures` through `this.…(…)` calls
(server.js lines 280-306).  Each entry returns `Except Unit _`: an
`Except.error` models an unexpected defect (an exception the probe itself
did not catch) escaping that call into the aggregator's own catch. -/
structure Validator where
  validateEmailFormat : Str → Except Unit Bool
  checkDisposableDomain : Str → Except Unit Bool
  isCommonDomain : Str → Except Unit Bool
  calculateDomainTypoScore : Str → Except Unit ℚ
  tldPopularityScore : Str → Except Unit ℚ
  validateDnsRecords : Str → Except Unit Bool
  validateMxRecords : Str → Except Unit Bool
  getMxRecordCount : Str → Except Unit ℚ
  validateDnsblRecords : Str → Except Unit Bool
  validateSpfRecord : Str → Except Unit Bool
  validateDmarcRecord : Str → Except Unit Bool
  validateDkimRecord : Str → Except Unit Bool
  validateSMTPConnection : Str → Except Unit Bool
  hasNumbers : Str → Except Unit Bool
  countSpecialChars : Str → Except Unit Nat
  hasConsecutiveSpecialChars : Str → Except Unit Bool

/-- Whether a method result is a normal return (no exception). -/
def exOk : Except Unit α → Bool
  | .ok _ => true
  | .error _ => false

/-- `extractFeatures` (server.js lines 269-319), parameterized by the
method table `v`.  The input-validation rejection short-circuits to the
all-zero vector before any probe is consulted.  A sanitized address with
no `@` leaves `domain` undefined, so `domain.length` (line 286) throws a
`TypeError` which the aggregator's catch (lines 315-318) turns into the
all-zero vector; the same catch turns any probe defect into the all-zero
vector.  On the defect-free path every label is assigned, the
`undefined`-fill loop (lines 308-312) is a no-op, and the returned list
is `featureLabels.map(label => features[label])` written out in the
canonical order. -/
def extractFeaturesWith (v : Validator) (email : JsVal) : List ℚ :=
  match sanitizeEmail email with
  | none => List.replicate featureLabels.length 0
  | some sanitized =>
    match (splitOnChar '@' sanitized).get? 1 with
    | none => List.replicate featureLabels.length 0
    | some domain =>
      let localPart := (splitOnChar '@' sanitized).headD []
      match v.validateEmailFormat sanitized, v.checkDisposableDomain domain,
            v.isCommonDomain domain, v.calculateDomainTypoScore domain,
            v.tldPopularityScore domain, v.validateDnsRecords domain,
            v.validateMxRecords domain, v.getMxRecordCount domain,
            v.validateDnsblRecords domain, v.validateSpfRecord domain,
            v.validateDmarcRecord domain, v.validateDkimRecord domain,
            v.validateSMTPConnection sanitized, v.hasNumbers localPart,
            v.countSpecialChars localPart, v.hasConsecutiveSpecialChars localPart with
      | .ok fmtV, .ok dispV, .ok commonV, .ok typoV, .ok tldV, .ok dnsV, .ok mxV,
        .ok mxCnt, .ok dnsblV, .ok spfV, .ok dmarcV, .ok dkimV, .ok smtpV,
        .ok numV, .ok specCnt, .ok consecV =>
        [1, b2q fmtV,
         min (qlen sanitized / 50) 1, min (qlen localPart / 30) 1, min (qlen domain / 30) 1,
         b2q dispV, b2q commonV, typoV, tldV,
         b2q dnsV, b2q mxV, mxCnt, b2q dnsblV,
         b2q spfV, b2q dmarcV, b2q dkimV, b2q smtpV,
         b2q numV, min ((specCnt : ℚ) / 5) 1, b2q consecV]
      | _, _, _, _, _, _, _, _, _, _, _, _, _, _, _, _ =>
        List.replicate featureLabels.length 0

/-- The concrete method table of the `EmailValidator` instance: every
method is the source probe, which never throws (each catches its own
resolver errors). -/
def mkValidator (env : Env) : Validator where
  validateEmailFormat := fun s => .ok (validateEmailFormat env s)
  checkDisposableDomain := fun d => .ok (checkDisposableDomain env d)
  isCommonDomain := fun d => .ok (isCommonDomain d)
  calculateDomainTypoScore := fun d => .ok (calculateDomainTypoScore d)
  tldPopularityScore := fun d => .ok (tldPopularityScore d)
  validateDnsRecords := fun d => .ok (validateDnsRecords env d)
  validateMxRecords := fun d => .ok (validateMxRecords env d)
  getMxRecordCount := fun d => .ok (getMxRecordCount env d)
  validateDnsblRecords := fun d => .ok (validateDnsblRecords env d)
  validateSpfRecord := fun d => .ok (validateSpfRecord env d)
  validateDmarcRecord := fun d => .ok (validateDmarcRecord env d)
  validateDkimRecord := fun d => .ok (validateDkimRecord env d)
  validateSMTPConnection := fun s => .ok (validateSMTPConnection env s)
  hasNumbers := fun s => .ok (hasNumbers s)
  countSpecialChars := fun s => .ok (countSpecialChars s)
  hasConsecutiveSpecialChars := fun s => .ok (hasConsecutiveSpecialChars s)

/-- `extractFeatures` against the live environment. -/
def extractFeatures (env : Env) (email : JsVal) : List ℚ :=
  extractFeaturesWith (mkValidator env) email

/-- The defect-free feature vector in canonical `featureLabels` order:
slot i holds the feature named `featureLabels[i]`. -/
def featureVectorOf (env : Env) (sanitized localPart domain : Str) : List ℚ :=
  [1, b2q (validateEmailFormat env sanitized),
   min (qlen sanitized / 50) 1, min (qlen localPart / 30) 1, min (qlen domain / 30) 1,
   b2q (checkDisposableDomain env domain), b2q (isCommonDomain domain),
   calculateDomainTypoScore domain, tldPopularityScore domain,
   b2q (validateDnsRecords env domain), b2q (validateMxRecords env domain),
   getMxRecordCount env domain, b2q (validateDnsblRecords env domain),
   b2q (validateSpfRecord env domain), b2q (validateDmarcRecord env domain),
   b2q (validateDkimRecord env domain), b2q (validateSMTPConnection env sanitized),
   b2q (hasNumbers localPart), min ((countSpecialChars localPart : ℚ) / 5) 1,
   b2q (hasConsecutiveSpecialChars localPart)]

/-- Whether every method call of the aggregator's defect-free path
returns normally. -/
def Validator.allOkB (v : Validator) (sanitized localPart domain : Str) : Bool :=
  exOk (v.validateEmailFormat sanitized) && exOk (v.checkDisposableDomain domain) &&
  exOk (v.isCommonDomain domain) && exOk (v.calculateDomainTypoScore domain) &&
  exOk (v.tldPopularityScore domain) && exOk (v.validateDnsRecords domain) &&
  exOk (v.validateMxRecords domain) && exOk (v.getMxRecordCount domain) &&
  exOk (v.validateDnsblRecords domain) && exOk (v.validateSpfRecord domain) &&
  exOk (v.validateDmarcRecord domain) && exOk (v.validateDkimRecord domain) &&
  exOk (v.validateSMTPConnection sanitized) && exOk (v.hasNumbers localPart) &&
  exOk (v.countSpecialChars localPart) && exOk (v.hasConsecutiveSpecialChars localPart)

/-- `this.model.predict(...)` through the `/validate` route: the
controller's `predict` has no catch, so a `null` model (`this.model`
initialized to `null`, neither trained nor loaded) throws a `TypeError`
that propagates to the route handler. -/
def predictModel (model : Option (List ℚ → ℚ)) (features : List ℚ) : Except Unit ℚ :=
  match model with
  | none => .error ()
  | some f => .ok (f features)

/-- The `/validate` route handler (server.js lines 20-44), reduced to the
HTTP status it answers with: the whole body is one try/catch whose catch
answers 400; `extractFeatures` never throws, so the only failure is the
`predict` call on an uninitialized model. -/
def postValidate (model : Option (List ℚ → ℚ)) (env : Env) (email : JsVal) : Nat :=
  match predictModel model (extractFeatures env email) with
  | .ok _ => 200
  | .error _ => 400

/-- The `/train` route handler (server.js lines 9-18), reduced to the
HTTP status it answers with: any error in training or saving answers
500. -/
def postTrain (outcome : Except Unit Unit) : Nat :=
  match outcome with
  | .ok _ => 200
  | .error _ => 500

/-- Number of blacklist hits over every MX-host/IP/zone combination,
examining all of them (no early exit anywhere). -/
def dnsblHitCount (env : Env) (recs : List MxRecord) : Nat :=
  (recs.map (fun mx =>
    match env.resolve4 mx.exchange with
    | .error _ => 0
    | .ok ips => (ips.map (fun ip => (dnsblZones.filter (dnsblHit env ip)).length)).sum)).sum

/-- The blacklist probe as the spec words it without short-circuiting:
"a resolution that succeeds for any zone/IP combination is a positive
blacklist hit", checked by counting hits over all combinations, with the
same zero-MX and MX-resolution-failure envelope as the source. -/
def dnsblExhaustive (env : Env) (domain : Str) : Bool :=
  match env.resolveMx domain with
  | .error _ => false
  | .ok mxRecords =>
    if mxRecords.isEmpty then true
    else decide (dnsblHitCount env mxRecords = 0)

/-- A fully reachable environment: A records exist, one MX host whose IP
resolution fails (so the DNSBL walk stays clean), TXT records carrying
SPF/DMARC/DKIM tags, a successful SMTP handshake, and an address-grammar
stand-in that accepts exactly the strings containing `@`. -/
def envT : Env where
  resolveA := fun _ => .ok ["93.184.216.34".data]
  resolveMx := fun _ => .ok [⟨"mx.example.com".data⟩]
  resolve4 := fun _ => .error .enotfound
  resolveTxt := fun _ =>
    .ok [["v=spf1 -all".data], ["v=DMARC1; p=none".data], ["v=DKIM1; k=rsa".data]]
  smtp := fun _ => .ok true
  isEmail := fun s => s.contains '@'
  disposableDomains := []

/-- `envT` with an address-grammar stand-in that rejects everything. -/
def envF : Env :=
  { envT with isEmail := fun _ => false }

/-- An environment whose MX resolution succeeds with an empty record list. -/
def envNoMx : Env :=
  { envT with resolveMx := fun _ => .ok [] }

/-- An environment with one MX host whose IP is listed in the first
configured DNSBL zone. -/
def envListed : Env :=
  { envT with
    resolveMx := fun _ => .ok [⟨"mx.bad.example".data⟩]
    resolve4 := fun q =>
      if q = "mx.bad.example".data then .ok ["1.2.3.4".data]
      else if q = "4.3.2.1.zen.spamhaus.org".data then .ok ["127.0.0.2".data]
      else .error .enotfound }

/-- An environment where the DKIM selector `default` does not match and
`google` does. -/
def envDkimG : Env :=
  { envT with
    resolveTxt := fun q =>
      if q = dkimQuery "google".data "b.com".data then .ok [["v=DKIM1; k=rsa".data]]
      else .ok [[]] }

/-- Agrees with `envDkimG` on the TXT queries for selectors `default` and
`google` against `b.com`, and fails every other TXT query — exercising
that selectors after the first match are never consulted. -/
def envDkimLate : Env :=
  { envT with
    resolveTxt := fun q =>
      if q = dkimQuery "google".data "b.com".data then .ok [["v=DKIM1; k=rsa".data]]
      else if q = dkimQuery "default".data "b.com".data then .ok [[]]
      else .error .other }

/-- An environment where no TXT query ever resolves. -/
def envDkimNone : Env :=
  { envT with resolveTxt := fun _ => .error .enotfound }

/-- The method table of `envT` with a single broken probe: the DNS
A-record probe throws an unexpected defect; every other method returns
normally. -/
def brokenDnsValidator : Validator :=
  { mkValidator envT with validateDnsRecords := fun _ => .error () }

/-! ## Helper lemmas -/

theorem b2q_bounds (b : Bool) : 0 ≤ b2q b ∧ b2q b ≤ 1 := by
  cases b <;> simp [b2q]

theorem clamp_bounds (a : ℚ) (ha : 0 ≤ a) : 0 ≤ min a 1 ∧ min a 1 ≤ 1 :=
  ⟨le_min ha zero_le_one, min_le_right a 1⟩

theorem qlen_nonneg (s : Str) : 0 ≤ qlen s := by
  simp [qlen]

theorem sanitizeEmail_none_of_reject (e : Str)
    (h : trimStr e = [] ∨ e.contains ',' = true ∨ e.contains ';' = true ∨
         1 < (splitWs (trimStr e)).length) :
    sanitizeEmail (some e) = none := by
  unfold sanitizeEmail
  rcases h with h | h | h | h
  · simp [h]
  · have h' : ',' ∈ e := by simpa using h
    by_cases ht : trimStr e = [] <;> simp [ht, h']
  · have h' : ';' ∈ e := by simpa using h
    by_cases ht : trimStr e = [] <;> simp [ht, h']
  · by_cases ht : trimStr e = [] <;> simp [ht, h]

/-- C1: every input rejected by the address parser (non-string, blank,
containing a comma or semicolon, or more than one whitespace-separated
token) yields the all-zero vector of canonical length, and the result is
the same for every method table `v` — the probe oracle is never
consulted, so no network probe runs. -/
theorem extractFeatures_rejected_allZero (email : JsVal)
    (h : email = none ∨ ∃ e, email = some e ∧
      (trimStr e = [] ∨ e.contains ',' = true ∨ e.contains ';' = true ∨
       1 < (splitWs (trimStr e)).length))
    (v : Validator) :
    extractFeaturesWith v email = List.replicate featureLabels.length 0 := by
  have hs : sanitizeEmail email = none := by
    rcases h with rfl | ⟨e, rfl, h⟩
    · rfl
    · exact sanitizeEmail_none_of_reject e h
  unfold extractFeaturesWith
  rw [hs]

theorem extractFeatures_rejected_allZero_witness :
    extractFeaturesWith (mkValidator envT) (some "a,b".data) =
      List.replicate featureLabels.length 0 :=
  extractFeatures_rejected_allZero (some "a,b".data)
    (Or.inr ⟨"a,b".data, rfl, Or.inr (Or.inl (by decide))⟩) (mkValidator envT)

/-- On the defect-free path the aggregator returns exactly the
per-feature functions in canonical label order. -/
theorem extractFeatures_accepted_eq
    (env : Env) (email : JsVal) (sanitized domain : Str)
    (h1 : sanitizeEmail email = some sanitized)
    (h2 : (splitOnChar '@' sanitized).get? 1 = some domain) :
    extractFeatures env email =
      featureVectorOf env sanitized ((splitOnChar '@' sanitized).headD []) domain := by
  unfold extractFeatures extractFeaturesWith
  rw [h1]
  dsimp only
  rw [h2]
  dsimp only [mkValidator]
  rfl

/-- C2: for every method table and every input the vector has exactly the
canonical number of slots (`featureLabels.length = 20`), and for every
parser-accepted address with a domain component the vector is exactly the
per-feature functions laid out in canonical `featureLabels` order
(`featureVectorOf`), whatever the probe outcomes in `env` are. -/
theorem extractFeatures_length_and_order :
    (∀ (v : Validator) (email : JsVal),
       (extractFeaturesWith v email).length = featureLabels.length)
    ∧ featureLabels.length = 20
    ∧ (∀ (env : Env) (email : JsVal) (sanitized domain : Str),
         sanitizeEmail email = some sanitized →
         (splitOnChar '@' sanitized).get? 1 = some domain →
         extractFeatures env email =
           featureVectorOf env sanitized ((splitOnChar '@' sanitized).headD []) domain) := by
  refine ⟨?_, rfl, ?_⟩
  · intro v email
    unfold extractFeaturesWith
    cases hs : sanitizeEmail email with
    | none => simp
    | some sanitized =>
      dsimp only
      cases hd : (splitOnChar '@' sanitized).get? 1 with
      | none => simp
      | some domain =>
        dsimp only
        split
        · rfl
        · simp
  · intro env email sanitized domain h1 h2
    exact extractFeatures_accepted_eq env email sanitized domain h1 h2

theorem extractFeatures_length_and_order_witness :
    sanitizeEmail (some "a@b.com".data) = some "a@b.com".data ∧
    (splitOnChar '@' "a@b.com".data).get? 1 = some "b.com".data ∧
    extractFeatures envT (some "a@b.com".data) =
      featureVectorOf envT "a@b.com".data "a".data "b.com".data :=
  ⟨by decide, by decide,
   extractFeatures_length_and_order.2.2 envT (some "a@b.com".data)
     "a@b.com".data "b.com".data (by decide) (by decide)⟩

theorem typo_bounds (d : Str) :
    0 ≤ calculateDomainTypoScore d ∧ calculateDomainTypoScore d ≤ 1 := by
  unfold calculateDomainTypoScore
  split
  · norm_num
  · exact clamp_bounds _ (by positivity)

theorem tld_bounds (d : Str) :
    0 ≤ tldPopularityScore d ∧ tldPopularityScore d ≤ 1 := by
  unfold tldPopularityScore
  dsimp only
  split <;> norm_num

theorem mxCount_bounds (env : Env) (d : Str) :
    0 ≤ getMxRecordCount env d ∧ getMxRecordCount env d ≤ 1 := by
  unfold getMxRecordCount
  split
  · exact clamp_bounds _ (by positivity)
  · norm_num

/-- C10: every element of the vector returned by `extractFeatures` lies
in the closed interval `[0, 1]`, for every environment and input. -/
theorem extractFeatures_slots_in_unit_interval :
    ∀ (env : Env) (email : JsVal) (x : ℚ),
      x ∈ extractFeatures env email → 0 ≤ x ∧ x ≤ 1 := by
  intro env email x hx
  unfold extractFeatures extractFeaturesWith at hx
  cases hs : sanitizeEmail email with
  | none =>
    rw [hs] at hx
    dsimp only at hx
    rw [List.eq_of_mem_replicate hx]
    norm_num
  | some sanitized =>
    rw [hs] at hx
    dsimp only at hx
    cases hd : (splitOnChar '@' sanitized).get? 1 with
    | none =>
      rw [hd] at hx
      dsimp only at hx
      rw [List.eq_of_mem_replicate hx]
      norm_num
    | some domain =>
      rw [hd] at hx
      dsimp only [mkValidator] at hx
      simp only [List.mem_cons, List.not_mem_nil, or_false] at hx
      rcases hx with rfl|rfl|rfl|rfl|rfl|rfl|rfl|rfl|rfl|rfl|rfl|rfl|rfl|rfl|rfl|rfl|rfl|rfl|rfl|rfl
      · exact ⟨zero_le_one, le_refl 1⟩
      · exact b2q_bounds _
      · exact clamp_bounds _ (div_nonneg (qlen_nonneg _) (by norm_num))
      · exact clamp_bounds _ (div_nonneg (qlen_nonneg _) (by norm_num))
      · exact clamp_bounds _ (div_nonneg (qlen_nonneg _) (by norm_num))
      · exact b2q_bounds _
      · exact b2q_bounds _
      · exact typo_bounds _
      · exact tld_bounds _
      · exact b2q_bounds _
      · exact b2q_bounds _
      · exact mxCount_bounds _ _
      · exact b2q_bounds _
      · exact b2q_bounds _
      · exact b2q_bounds _
      · exact b2q_bounds _
      · exact b2q_bounds _
      · exact b2q_bounds _
      · exact clamp_bounds _ (div_nonneg (Nat.cast_nonneg _) (by norm_num))
      · exact b2q_bounds _

theorem extractFeatures_slots_in_unit_interval_witness :
    (1 : ℚ) ∈ extractFeatures envT (some "a@b.com".data) ∧
    (0 ≤ (1 : ℚ) ∧ (1 : ℚ) ≤ 1) :=
  ⟨by decide,
   extractFeatures_slots_in_unit_interval envT (some "a@b.com".data) 1 (by decide)⟩

/-- C3 counterexample: the parser accepts `a@b.com`; in the method table
`brokenDnsValidator` exactly one probe (DNS A-record) throws an
unexpected defect while every other method returns normally (syntax even
returns `true`), yet the returned vector is all-zero — the aggregator's
catch (server.js lines 315-318) does not preserve the other probes'
computed slot values. -/
theorem extractFeatures_single_defect_counterexample :
    sanitizeEmail (some "a@b.com".data) = some "a@b.com".data ∧
    exOk (brokenDnsValidator.validateDnsRecords "b.com".data) = false ∧
    brokenDnsValidator.validateEmailFormat "a@b.com".data = .ok true ∧
    exOk (brokenDnsValidator.validateMxRecords "b.com".data) = true ∧
    exOk (brokenDnsValidator.validateSMTPConnection "a@b.com".data) = true ∧
    extractFeaturesWith brokenDnsValidator (some "a@b.com".data) =
      List.replicate featureLabels.length 0 := by
  refine ⟨by decide, by decide, by rfl, by decide, by decide, ?_⟩
  rfl

/-- C3 (amended): for a parser-accepted input with a domain component, if
any method call of the aggregator sequence throws (`allOkB` is false),
the single catch of `extractFeatures` replaces the whole vector with the
all-zero vector of canonical length. -/
theorem extractFeatures_defect_blanks_vector
    (v : Validator) (email : JsVal) (sanitized domain : Str)
    (h1 : sanitizeEmail email = some sanitized)
    (h2 : (splitOnChar '@' sanitized).get? 1 = some domain)
    (h3 : v.allOkB sanitized ((splitOnChar '@' sanitized).headD []) domain = false) :
    extractFeaturesWith v email = List.replicate featureLabels.length 0 := by
  unfold extractFeaturesWith
  rw [h1]
  dsimp only
  rw [h2]
  dsimp only
  split
  · rename_i fmtV dispV commonV typoV tldV dnsV mxV mxCnt dnsblV spfV dmarcV dkimV
      smtpV numV specCnt consecV heq1 heq2 heq3 heq4 heq5 heq6 heq7 heq8 heq9 heq10
      heq11 heq12 heq13 heq14 heq15 heq16
    simp only [Validator.allOkB, exOk, heq1, heq2, heq3, heq4, heq5, heq6, heq7, heq8,
      heq9, heq10, heq11, heq12, heq13, heq14, heq15, heq16] at h3
    simp at h3
  · rfl

theorem extractFeatures_defect_blanks_vector_witness :
    brokenDnsValidator.allOkB "a@b.com".data
      ((splitOnChar '@' "a@b.com".data).headD []) "b.com".data = false ∧
    extractFeaturesWith brokenDnsValidator (some "a@b.com".data) =
      List.replicate featureLabels.length 0 :=
  ⟨by decide,
   extractFeatures_defect_blanks_vector brokenDnsValidator (some "a@b.com".data)
     "a@b.com".data "b.com".data (by decide) (by decide) (by decide)⟩

/-- C4 counterexample: the parser accepts `abc` (non-empty, single token,
no separators), the syntax check fails on it, the A-record and SMTP
probes of `envT` would both pass — yet `extractFeatures` returns the
all-zero vector, because `"abc".split('@')` leaves `domain` undefined and
`domain.length` (server.js line 286) throws into the aggregator catch.
The pipeline does abort instead of recording individual pass/fail. -/
theorem extractFeatures_syntax_fail_counterexample :
    sanitizeEmail (some "abc".data) = some "abc".data ∧
    validateEmailFormat envT "abc".data = false ∧
    validateDnsRecords envT "abc".data = true ∧
    validateSMTPConnection envT "abc".data = true ∧
    extractFeatures envT (some "abc".data) = List.replicate featureLabels.length 0 :=
  ⟨by decide, by decide, by decide, by decide, by rfl⟩

/-- C4 (amended): for every input the parser accepts that contains an `@`
(so the split yields a domain component), failure of the syntax check
does not abort the pipeline: the vector is the full per-feature list,
whose syntax slot (index 1) is 0 while the probe slots (e.g. DNS at
index 9, SMTP at index 16) carry each probe's own outcome. -/
theorem extractFeatures_syntax_fail_continues
    (env : Env) (email : JsVal) (sanitized domain : Str)
    (h1 : sanitizeEmail email = some sanitized)
    (h2 : (splitOnChar '@' sanitized).get? 1 = some domain)
    (h3 : validateEmailFormat env sanitized = false) :
    extractFeatures env email =
      featureVectorOf env sanitized ((splitOnChar '@' sanitized).headD []) domain ∧
    (extractFeatures env email).get? 1 = some 0 ∧
    (extractFeatures env email).get? 9 = some (b2q (validateDnsRecords env domain)) ∧
    (extractFeatures env email).get? 16 =
      some (b2q (validateSMTPConnection env sanitized)) := by
  have he := extractFeatures_accepted_eq env email sanitized domain h1 h2
  refine ⟨he, ?_, ?_, ?_⟩ <;> rw [he] <;> simp [featureVectorOf, h3, b2q]

theorem extractFeatures_syntax_fail_continues_witness :
    validateEmailFormat envF "a@b.com".data = false ∧
    extractFeatures envF (some "a@b.com".data) =
      featureVectorOf envF "a@b.com".data "a".data "b.com".data ∧
    extractFeatures envF (some "a@b.com".data) ≠
      List.replicate featureLabels.length 0 :=
  ⟨by decide,
   (extractFeatures_syntax_fail_continues envF (some "a@b.com".data)
     "a@b.com".data "b.com".data (by decide) (by decide) (by decide)).1,
   by decide⟩

theorem dnsblScanZones_eq_any (env : Env) (ip : Str) (zones : List Str) :
    dnsblScanZones env ip zones = zones.any (dnsblHit env ip) := by
  induction zones with
  | nil => rfl
  | cons z zs ih => by_cases h : dnsblHit env ip z <;> simp [dnsblScanZones, h, ih]

theorem dnsblScanIps_eq_any (env : Env) (ips : List Str) :
    dnsblScanIps env ips = ips.any (fun ip => dnsblScanZones env ip dnsblZones) := by
  induction ips with
  | nil => rfl
  | cons ip ips ih =>
    by_cases h : dnsblScanZones env ip dnsblZones <;> simp [dnsblScanIps, h, ih]

theorem dnsblScanMx_eq_any (env : Env) (recs : List MxRecord) :
    dnsblScanMx env recs = recs.any (fun mx =>
      match env.resolve4 mx.exchange with
      | .error _ => false
      | .ok ips => dnsblScanIps env ips) := by
  induction recs with
  | nil => rfl
  | cons mx rest ih =>
    cases hr : env.resolve4 mx.exchange with
    | error e => simp [dnsblScanMx, hr, ih]
    | ok ips =>
      by_cases h : dnsblScanIps env ips <;> simp [dnsblScanMx, hr, h, ih]

theorem dnsblScanZones_iff (env : Env) (ip : Str) (zones : List Str) :
    dnsblScanZones env ip zones = true ↔
      (zones.filter (dnsblHit env ip)).length ≠ 0 := by
  induction zones with
  | nil => simp [dnsblScanZones]
  | cons z zs ih =>
    by_cases h : dnsblHit env ip z <;>
      simp [dnsblScanZones, List.filter_cons, h, ih]

theorem dnsblScanIps_iff (env : Env) (ips : List Str) :
    dnsblScanIps env ips = true ↔
      (ips.map (fun ip => (dnsblZones.filter (dnsblHit env ip)).length)).sum ≠ 0 := by
  induction ips with
  | nil => simp [dnsblScanIps]
  | cons ip ips ih =>
    by_cases h : dnsblScanZones env ip dnsblZones
    · have h0 := (dnsblScanZones_iff env ip dnsblZones).1 h
      have hl : dnsblScanIps env (ip :: ips) = true := by simp [dnsblScanIps, h]
      refine iff_of_true hl ?_
      rw [List.map_cons, List.sum_cons]
      omega
    · have h0 : (dnsblZones.filter (dnsblHit env ip)).length = 0 := by
        by_contra hne
        exact h ((dnsblScanZones_iff env ip dnsblZones).2 hne)
      have hl : dnsblScanIps env (ip :: ips) = dnsblScanIps env ips := by
        simp [dnsblScanIps, h]
      rw [hl, List.map_cons, List.sum_cons, h0, Nat.zero_add]
      exact ih

theorem dnsblHitCount_cons (env : Env) (mx : MxRecord) (rest : List MxRecord) :
    dnsblHitCount env (mx :: rest) =
      (match env.resolve4 mx.exchange with
       | .error _ => 0
       | .ok ips => (ips.map (fun ip => (dnsblZones.filter (dnsblHit env ip)).length)).sum)
      + dnsblHitCount env rest := by
  simp [dnsblHitCount]

theorem dnsblScanMx_iff (env : Env) (recs : List MxRecord) :
    dnsblScanMx env recs = true ↔ dnsblHitCount env recs ≠ 0 := by
  induction recs with
  | nil => simp [dnsblScanMx, dnsblHitCount]
  | cons mx rest ih =>
    cases hr : env.resolve4 mx.exchange with
    | error e =>
      rw [dnsblHitCount_cons, hr]
      dsimp only
      rw [Nat.zero_add]
      have hl : dnsblScanMx env (mx :: rest) = dnsblScanMx env rest := by
        simp [dnsblScanMx, hr]
      rw [hl]
      exact ih
    | ok ips =>
      rw [dnsblHitCount_cons, hr]
      dsimp only
      by_cases h : dnsblScanIps env ips
      · have h0 := (dnsblScanIps_iff env ips).1 h
        have hl : dnsblScanMx env (mx :: rest) = true := by simp [dnsblScanMx, hr, h]
        refine iff_of_true hl ?_
        omega
      · have h0 : (ips.map (fun ip => (dnsblZones.filter (dnsblHit env ip)).length)).sum = 0 := by
          by_contra hne
          exact h ((dnsblScanIps_iff env ips).2 hne)
        have hl : dnsblScanMx env (mx :: rest) = dnsblScanMx env rest := by
          simp [dnsblScanMx, hr, h]
        rw [hl, h0, Nat.zero_add]
        exact ih

/-- C5: the blacklist probe answers "not listed" (true) for a domain whose
MX record list resolves to empty; it answers "listed" (false) whenever
some MX host resolves to an IP whose reversed-octet query against some
configured zone resolves successfully (with at least one address, as any
successful DNSBL answer carries); and its answer coincides everywhere
with `dnsblExhaustive`, the variant that examines every combination
without short-circuiting. -/
theorem dnsbl_probe_props :
    (∀ (env : Env) (domain : Str),
       env.resolveMx domain = .ok [] → validateDnsblRecords env domain = true)
    ∧ (∀ (env : Env) (domain : Str) (recs : List MxRecord) (mx : MxRecord)
         (ips : List Str) (ip : Str) (zone : Str) (addrs : List Str),
         env.resolveMx domain = .ok recs → mx ∈ recs →
         env.resolve4 mx.exchange = .ok ips → ip ∈ ips →
         zone ∈ dnsblZones →
         env.resolve4 (dnsblQuery ip zone) = .ok addrs → addrs ≠ [] →
         validateDnsblRecords env domain = false)
    ∧ (∀ (env : Env) (domain : Str),
         validateDnsblRecords env domain = dnsblExhaustive env domain) := by
  refine ⟨?_, ?_, ?_⟩
  · intro env domain h
    unfold validateDnsblRecords
    rw [h]
    rfl
  · intro env domain recs mx ips ip zone addrs h1 hmx hips hip hzone haddr hne
    have hhit : dnsblHit env ip zone = true := by
      unfold dnsblHit
      rw [haddr]
      cases addrs with
      | nil => exact absurd rfl hne
      | cons a as => rfl
    have hscan : dnsblScanMx env recs = true := by
      rw [dnsblScanMx_eq_any, List.any_eq_true]
      refine ⟨mx, hmx, ?_⟩
      rw [hips]
      dsimp only
      rw [dnsblScanIps_eq_any, List.any_eq_true]
      refine ⟨ip, hip, ?_⟩
      rw [dnsblScanZones_eq_any, List.any_eq_true]
      exact ⟨zone, hzone, hhit⟩
    have hemp : recs.isEmpty = false := by
      cases recs with
      | nil => exact absurd hmx (List.not_mem_nil mx)
      | cons r rs => rfl
    unfold validateDnsblRecords
    rw [h1]
    simp [hemp, hscan]
  · intro env domain
    unfold validateDnsblRecords dnsblExhaustive
    cases hm : env.resolveMx domain with
    | error e => rfl
    | ok recs =>
      by_cases he : recs.isEmpty
      · simp [he]
      · simp only [he, if_false, Bool.false_eq_true]
        cases hsc : dnsblScanMx env recs with
        | true =>
          have hc := (dnsblScanMx_iff env recs).1 hsc
          simp [hc]
        | false =>
          have hc : dnsblHitCount env recs = 0 := by
            by_contra hne
            rw [(dnsblScanMx_iff env recs).2 hne] at hsc
            exact Bool.noConfusion hsc
          simp [hc]

theorem dnsbl_probe_props_witness :
    validateDnsblRecords envNoMx "b.com".data = true ∧
    validateDnsblRecords envListed "b.com".data = false ∧
    validateDnsblRecords envListed "b.com".data = dnsblExhaustive envListed "b.com".data :=
  ⟨dnsbl_probe_props.1 envNoMx "b.com".data (by decide),
   dnsbl_probe_props.2.1 envListed "b.com".data [⟨"mx.bad.example".data⟩]
     ⟨"mx.bad.example".data⟩ ["1.2.3.4".data] "1.2.3.4".data
     "zen.spamhaus.org".data ["127.0.0.2".data]
     (by decide) (by decide) (by decide) (by decide) (by decide) (by decide) (by decide),
   dnsbl_probe_props.2.2 envListed "b.com".data⟩

theorem dkimGo_eq_any (env : Env) (domain : Str) (sels : List Str) :
    dkimGo env domain sels = sels.any (dkimSelMatch env domain) := by
  induction sels with
  | nil => rfl
  | cons sel rest ih =>
    by_cases h : dkimSelMatch env domain sel <;> simp [dkimGo, h, ih]

theorem dkimSelMatch_congr (env env' : Env) (domain sel : Str)
    (h : env'.resolveTxt (dkimQuery sel domain) = env.resolveTxt (dkimQuery sel domain)) :
    dkimSelMatch env' domain sel = dkimSelMatch env domain sel := by
  unfold dkimSelMatch
  rw [h]

/-- C6: the DKIM probe walks the fixed selector list in order.  If the
selectors split as `pre ++ sel :: post` where nothing in `pre` matches
and `sel` matches, the probe returns true, and it still returns true in
any environment that agrees with the original only on the TXT queries for
the selectors up to and including `sel` — the answers for the later
selectors are never consulted.  Exhausting the whole list with no match
returns false (a fail, not an error). -/
theorem dkim_selector_props :
    (∀ (env : Env) (domain : Str) (pre post : List Str) (sel : Str),
       dkimSelectors = pre ++ sel :: post →
       (∀ s ∈ pre, dkimSelMatch env domain s = false) →
       dkimSelMatch env domain sel = true →
       validateDkimRecord env domain = true ∧
       (∀ env' : Env,
          (∀ s ∈ pre ++ [sel],
             env'.resolveTxt (dkimQuery s domain) = env.resolveTxt (dkimQuery s domain)) →
          validateDkimRecord env' domain = true))
    ∧ (∀ (env : Env) (domain : Str),
         (∀ s ∈ dkimSelectors, dkimSelMatch env domain s = false) →
         validateDkimRecord env domain = false) := by
  constructor
  · intro env domain pre post sel hsplit hpre hsel
    have hmem : sel ∈ dkimSelectors := by
      rw [hsplit]
      exact List.mem_append_right pre (List.mem_cons_self sel post)
    constructor
    · unfold validateDkimRecord
      rw [dkimGo_eq_any, List.any_eq_true]
      exact ⟨sel, hmem, hsel⟩
    · intro env' hagree
      have hsel' : dkimSelMatch env' domain sel = true := by
        rw [dkimSelMatch_congr env env' domain sel
          (hagree sel (List.mem_append_right pre (List.mem_cons_self sel [])))]
        exact hsel
      unfold validateDkimRecord
      rw [dkimGo_eq_any, List.any_eq_true]
      exact ⟨sel, hmem, hsel'⟩
  · intro env domain hall
    unfold validateDkimRecord
    rw [dkimGo_eq_any]
    rw [List.any_eq_false]
    intro s hs
    simp [hall s hs]

theorem dkim_selector_props_witness :
    validateDkimRecord envDkimG "b.com".data = true ∧
    validateDkimRecord envDkimLate "b.com".data = true ∧
    validateDkimRecord envDkimNone "b.com".data = false :=
  ⟨(dkim_selector_props.1 envDkimG "b.com".data ["default".data]
      ["k1".data, "selector1".data, "selector2".data, "dkim".data] "google".data
      (by decide) (by decide) (by decide)).1,
   (dkim_selector_props.1 envDkimG "b.com".data ["default".data]
      ["k1".data, "selector1".data, "selector2".data, "dkim".data] "google".data
      (by decide) (by decide) (by decide)).2 envDkimLate (by decide),
   dkim_selector_props.2 envDkimNone "b.com".data (by decide)⟩

theorem levFuel_nil_left (f : Nat) (ys : Str) : levFuel f [] ys = ys.length := by
  cases f <;> rfl

theorem levFuel_nil_right (f : Nat) (x : Char) (xs : Str) :
    levFuel f (x :: xs) [] = (x :: xs).length := by
  cases f <;> rfl

theorem levFuel_congr : ∀ (f1 f2 : Nat) (xs ys : Str),
    xs.length + ys.length ≤ f1 → xs.length + ys.length ≤ f2 →
    levFuel f1 xs ys = levFuel f2 xs ys := by
  intro f1
  induction f1 with
  | zero =>
    intro f2 xs ys h1 h2
    cases xs with
    | nil => rw [levFuel_nil_left, levFuel_nil_left]
    | cons x xs' =>
      cases ys with
      | nil => rw [levFuel_nil_right, levFuel_nil_right]
      | cons y ys' => simp [List.length_cons] at h1
  | succ f ih =>
    intro f2 xs ys h1 h2
    cases xs with
    | nil => rw [levFuel_nil_left, levFuel_nil_left]
    | cons x xs' =>
      cases ys with
      | nil => rw [levFuel_nil_right, levFuel_nil_right]
      | cons y ys' =>
        cases f2 with
        | zero => simp [List.length_cons] at h2
        | succ g =>
          simp only [List.length_cons] at h1 h2
          have l1 : xs'.length + (y :: ys').length ≤ f := by
            simp only [List.length_cons]; omega
          have l2 : (x :: xs').length + ys'.length ≤ f := by
            simp only [List.length_cons]; omega
          have l3 : xs'.length + ys'.length ≤ f := by omega
          have r1 : xs'.length + (y :: ys').length ≤ g := by
            simp only [List.length_cons]; omega
          have r2 : (x :: xs').length + ys'.length ≤ g := by
            simp only [List.length_cons]; omega
          have r3 : xs'.length + ys'.length ≤ g := by omega
          show (if x = y then levFuel f xs' ys'
                else 1 + min (levFuel f xs' (y :: ys'))
                             (min (levFuel f (x :: xs') ys') (levFuel f xs' ys'))) =
               (if x = y then levFuel g xs' ys'
                else 1 + min (levFuel g xs' (y :: ys'))
                             (min (levFuel g (x :: xs') ys') (levFuel g xs' ys')))
          by_cases hxy : x = y
          · rw [if_pos hxy, if_pos hxy, ih g xs' ys' l3 r3]
          · rw [if_neg hxy, if_neg hxy, ih g xs' (y :: ys') l1 r1,
              ih g (x :: xs') ys' l2 r2, ih g xs' ys' l3 r3]

/-- The standard Levenshtein recurrence holds for `lev`: the fuel
`|xs| + |ys|` never runs out. -/
theorem lev_cons_cons (x y : Char) (xs ys : Str) :
    lev (x :: xs) (y :: ys) =
      if x = y then lev xs ys
      else 1 + min (lev xs (y :: ys)) (min (lev (x :: xs) ys) (lev xs ys)) := by
  unfold lev
  have hN : (x :: xs).length + (y :: ys).length = (xs.length + ys.length + 1) + 1 := by
    simp only [List.length_cons]
    omega
  rw [hN]
  show (if x = y then levFuel (xs.length + ys.length + 1) xs ys
        else 1 + min (levFuel (xs.length + ys.length + 1) xs (y :: ys))
                     (min (levFuel (xs.length + ys.length + 1) (x :: xs) ys)
                          (levFuel (xs.length + ys.length + 1) xs ys))) = _
  by_cases hxy : x = y
  · rw [if_pos hxy, if_pos hxy]
    exact levFuel_congr _ _ xs ys (by omega) (le_refl _)
  · rw [if_neg hxy, if_neg hxy]
    rw [levFuel_congr _ _ xs (y :: ys) (by simp only [List.length_cons]; omega) (le_refl _),
      levFuel_congr _ _ (x :: xs) ys (by simp only [List.length_cons]; omega) (le_refl _),
      levFuel_congr _ _ xs ys (by omega) (le_refl _)]

theorem lev_self (xs : Str) : lev xs xs = 0 := by
  induction xs with
  | nil => rfl
  | cons x xs ih => rw [lev_cons_cons, if_pos rfl, ih]

theorem foldl_min_le_init (ds : List Nat) (d : Nat) : ds.foldl min d ≤ d := by
  induction ds generalizing d with
  | nil => exact le_refl d
  | cons a as ih => exact le_trans (ih (min d a)) (min_le_left d a)

theorem foldl_min_le_mem : ∀ (ds : List Nat) (d x : Nat), x ∈ ds → ds.foldl min d ≤ x := by
  intro ds
  induction ds with
  | nil => intro d x hx; exact absurd hx (List.not_mem_nil x)
  | cons a as ih =>
    intro d x hx
    rcases List.mem_cons.1 hx with rfl | hx'
    · exact le_trans (foldl_min_le_init as (min d x)) (min_le_right d x)
    · exact ih (min d a) x hx'

theorem foldl_min_choice : ∀ (ds : List Nat) (d : Nat),
    ds.foldl min d = d ∨ ds.foldl min d ∈ ds := by
  intro ds
  induction ds with
  | nil => intro d; exact Or.inl rfl
  | cons a as ih =>
    intro d
    rw [List.foldl_cons]
    rcases ih (min d a) with h | h
    · rcases min_choice d a with hm | hm
      · exact Or.inl (by rw [h, hm])
      · exact Or.inr (by rw [h, hm]; exact List.mem_cons_self a as)
    · exact Or.inr (List.mem_cons_of_mem a h)

theorem minDistance_le (d : Str) (cd : Str) (hcd : cd ∈ commonDomains) :
    minDistance d ≤ lev (toLowerStr d) cd := by
  unfold minDistance
  simp only [commonDomains, List.map_cons, List.map_nil]
  fin_cases hcd <;>
    first
      | exact foldl_min_le_init _ _
      | exact foldl_min_le_mem _ _ _ (by simp)

theorem minDistance_mem (d : Str) :
    ∃ cd ∈ commonDomains, minDistance d = lev (toLowerStr d) cd := by
  unfold minDistance
  simp only [commonDomains, List.map_cons, List.map_nil]
  rcases foldl_min_choice _ (lev (toLowerStr d) "gmail.com".data) with h | h
  · exact ⟨"gmail.com".data, by simp [commonDomains], h⟩
  · simp only [List.mem_cons, List.not_mem_nil, or_false] at h
    rcases h with h|h|h|h|h|h|h|h|h
    · exact ⟨"yahoo.com".data, by simp [commonDomains], h⟩
    · exact ⟨"hotmail.com".data, by simp [commonDomains], h⟩
    · exact ⟨"outlook.com".data, by simp [commonDomains], h⟩
    · exact ⟨"aol.com".data, by simp [commonDomains], h⟩
    · exact ⟨"icloud.com".data, by simp [commonDomains], h⟩
    · exact ⟨"protonmail.com".data, by simp [commonDomains], h⟩
    · exact ⟨"mail.com".data, by simp [commonDomains], h⟩
    · exact ⟨"zoho.com".data, by simp [commonDomains], h⟩
    · exact ⟨"yandex.com".data, by simp [commonDomains], h⟩

theorem minDistance_zero_of_common (d : Str) (h : isCommonDomain d = true) :
    minDistance d = 0 := by
  have hm : toLowerStr d ∈ commonDomains := List.elem_iff.1 h
  have h1 := minDistance_le d (toLowerStr d) hm
  rw [lev_self] at h1
  exact Nat.le_zero.1 h1

theorem calculateDomainTypoScore_eq (d : Str) :
    calculateDomainTypoScore d = min ((minDistance d : ℚ) / 3) 1 := by
  unfold calculateDomainTypoScore
  by_cases h : isCommonDomain d = true
  · rw [if_pos h, minDistance_zero_of_common d h]
    norm_num
  · rw [if_neg h]

/-- C7: `calculateDomainTypoScore` is 0 on every common-provider domain;
otherwise it is exactly the minimum Levenshtein distance to the common
providers divided by 3 and clamped at 1 (`minDistance` is shown to be a
lower bound attained on some provider); it is monotone in `minDistance`
and stays within `[0, 1]`. -/
theorem domainTypoScore_props :
    (∀ d : Str, isCommonDomain d = true → calculateDomainTypoScore d = 0)
    ∧ (∀ d : Str, isCommonDomain d = false →
         calculateDomainTypoScore d = min ((minDistance d : ℚ) / 3) 1)
    ∧ (∀ (d cd : Str), cd ∈ commonDomains → minDistance d ≤ lev (toLowerStr d) cd)
    ∧ (∀ d : Str, ∃ cd ∈ commonDomains, minDistance d = lev (toLowerStr d) cd)
    ∧ (∀ d1 d2 : Str, minDistance d1 ≤ minDistance d2 →
         calculateDomainTypoScore d1 ≤ calculateDomainTypoScore d2)
    ∧ (∀ d : Str, 0 ≤ calculateDomainTypoScore d ∧ calculateDomainTypoScore d ≤ 1) := by
  refine ⟨?_, ?_, minDistance_le, minDistance_mem, ?_, typo_bounds⟩
  · intro d h
    simp [calculateDomainTypoScore, h]
  · intro d h
    simp [calculateDomainTypoScore, h]
  · intro d1 d2 h
    rw [calculateDomainTypoScore_eq, calculateDomainTypoScore_eq]
    have hc : ((minDistance d1 : ℚ)) ≤ (minDistance d2 : ℚ) := by exact_mod_cast h
    gcongr

theorem domainTypoScore_props_witness :
    calculateDomainTypoScore "gmail.com".data = 0 ∧
    calculateDomainTypoScore "b.com".data = min ((minDistance "b.com".data : ℚ) / 3) 1 ∧
    minDistance "b.com".data ≤ lev (toLowerStr "b.com".data) "mail.com".data ∧
    calculateDomainTypoScore "zz".data ≤ calculateDomainTypoScore "zzz".data :=
  ⟨domainTypoScore_props.1 "gmail.com".data (by decide),
   domainTypoScore_props.2.1 "b.com".data (by decide),
   domainTypoScore_props.2.2.1 "b.com".data "mail.com".data (by decide),
   domainTypoScore_props.2.2.2.2.1 "zz".data "zzz".data (by decide)⟩

/-- C8: `tldPopularityScore` is exactly 1 when the last dot-separated
label of the domain, lower-cased, is in `topLevelDomains`, exactly 1/2
otherwise, and never 0. -/
theorem tldPopularity_props :
    (∀ d : Str,
       topLevelDomains.contains (toLowerStr ((splitOnChar '.' d).getLastD [])) = true →
       tldPopularityScore d = 1)
    ∧ (∀ d : Str,
         topLevelDomains.contains (toLowerStr ((splitOnChar '.' d).getLastD [])) = false →
         tldPopularityScore d = 1 / 2)
    ∧ (∀ d : Str, tldPopularityScore d ≠ 0) := by
  refine ⟨?_, ?_, ?_⟩
  · intro d h
    unfold tldPopularityScore
    dsimp only
    rw [h]
    simp
  · intro d h
    unfold tldPopularityScore
    dsimp only
    rw [h]
    simp
  · intro d
    unfold tldPopularityScore
    dsimp only
    split <;> norm_num

theorem tldPopularity_props_witness :
    tldPopularityScore "a.com".data = 1 ∧
    tldPopularityScore "a.xyz".data = 1 / 2 ∧
    tldPopularityScore "a.xyz".data ≠ 0 :=
  ⟨tldPopularity_props.1 "a.com".data (by decide),
   tldPopularity_props.2.1 "a.xyz".data (by decide),
   tldPopularity_props.2.2 "a.xyz".data⟩

/-- C9 counterexample: a `/validate` request made while the model is
still `null` (never trained or loaded) answers 400, not 503 — the
`this.model.predict` call throws and the route's single catch maps every
error to 400; no handler ever answers 503. -/
theorem postValidate_no_model_counterexample :
    postValidate none envT (some "a@b.com".data) = 400 ∧
    postValidate none envT (some "a@b.com".data) ≠ 503 :=
  ⟨by decide, by decide⟩

/-- C9 (amended): `/validate` answers 200 whenever a model is loaded and
400 for every request made with no model initialized (the
model-not-initialized condition is folded into the generic 400, never a
distinct 503); `/train` answers 200 on success and 500 on any failure. -/
theorem api_status_props :
    (∀ (env : Env) (email : JsVal), postValidate none env email = 400)
    ∧ (∀ (env : Env) (email : JsVal) (m : List ℚ → ℚ),
         postValidate (some m) env email = 200)
    ∧ (∀ o : Except Unit Unit, postTrain o = 200 ∨ postTrain o = 500) := by
  refine ⟨fun env email => rfl, fun env email m => rfl, ?_⟩
  intro o
  cases o with
  | ok u => exact Or.inl rfl
  | error e => exact Or.inr rfl
